import Mathlib

/-!
Shallow embedding of the ytdown job lifecycle core (src/app.py and
src/app-https-requires-certbot.py): the token-addressed job registry, the
per-client daily rate limiter, the progress-reporting bridge, the worker
finalization paths, and the `/watch`, `/progress`, `/download` endpoints.

Python dicts are modelled as association lists keyed by `String`; the
mutual-exclusion lock is modelled by making each critical section a pure
function from state to state; wall-clock inputs (today's UTC date string,
the current time, the generated uuid token) are explicit parameters.
-/

namespace Ytdown

/-- A Python dict keyed by strings, as an association list. -/
abbrev AList (α : Type) := List (String × α)

/-- Dict lookup: `m.get(k)`. -/
def AList.get? {α : Type} : AList α → String → Option α
  | [], _ => none
  | (k', v) :: rest, k => if k' = k then some v else AList.get? rest k

/-- Dict assignment `m[k] = v`: overwrite in place if present, else append. -/
def AList.set {α : Type} : AList α → String → α → AList α
  | [], k, v => [(k, v)]
  | (k', v') :: rest, k, v =>
    if k' = k then (k, v) :: rest else (k', v') :: AList.set rest k v

/-- Dict removal `m.pop(k, None)` (the removed value is discarded). -/
def AList.pop {α : Type} : AList α → String → AList α
  | [], _ => []
  | (k', v') :: rest, k => if k' = k then rest else (k', v') :: AList.pop rest k

/-! ### Configuration constants (src/app.py lines 19-25) -/

def MAX_PARALLEL_DOWNLOADS : ℕ := 4
def TOKEN_EXPIRE_SECONDS : ℕ := 300
def FILE_DELETE_SECONDS : ℕ := 360
def MAX_DOWNLOADS_PER_DAY : ℕ := 10

namespace Https

/-- Configuration of the https variant (src/app-https-requires-certbot.py line 22). -/
def TOKEN_EXPIRE_SECONDS : ℕ := 5

/-- Configuration of the https variant (src/app-https-requires-certbot.py line 23). -/
def FILE_DELETE_SECONDS : ℕ := 10

end Https

/-! ### Rate limiter (`check_ip_limit`, src/app.py lines 48-57) -/

/-- One entry of `IP_LIMITS`: the UTC day string and the count so far. -/
structure IpEntry where
  date : String
  count : ℕ
deriving DecidableEq

/-- `check_ip_limit(ip)`: returns the admission decision and the updated
`IP_LIMITS` map. `todayStr` is the value of `today()` during the call. -/
def check_ip_limit (limits : AList IpEntry) (ip : String) (todayStr : String) :
    Bool × AList IpEntry :=
  match AList.get? limits ip with
  | none => (true, AList.set limits ip ⟨todayStr, 1⟩)
  | some entry =>
    if entry.date ≠ todayStr then (true, AList.set limits ip ⟨todayStr, 1⟩)
    else if MAX_DOWNLOADS_PER_DAY ≤ entry.count then (false, limits)
    else (true, AList.set limits ip ⟨entry.date, entry.count + 1⟩)

/-! ### Job records (the values of `DOWNLOADS`, created in `watch`) -/

/-- One value of the `DOWNLOADS` dict (src/app.py lines 203-217). -/
structure JobRecord where
  token : String
  ip : String
  video_id : String
  fmt : String
  status : String
  percent : ℚ
  speed : Option ℚ
  eta : Option ℚ
  downloaded_bytes : ℕ
  total_bytes : Option ℕ
  started : ℚ
  file : Option String
  error : Option String
deriving DecidableEq

/-- The fresh record `watch` stores for an accepted submission
(src/app.py lines 203-217). -/
def initRecord (token ip vid fmt : String) (now : ℚ) : JobRecord :=
  { token := token
    ip := ip
    video_id := vid
    fmt := fmt
    status := "queued"
    percent := 0
    speed := none
    eta := none
    downloaded_bytes := 0
    total_bytes := none
    started := now
    file := none
    error := none }

/-! ### Progress bridge (`progress_hook`, src/app.py lines 99-120) -/

/-- The argument dict yt-dlp passes to a progress hook, restricted to the
keys the hook reads. An absent key is `none`. -/
structure HookEvent where
  status : String
  downloaded_bytes : Option ℕ
  total_bytes : Option ℕ
  total_bytes_estimate : Option ℕ
  speed : Option ℚ
  eta : Option ℚ
deriving DecidableEq

/-- Python `a or b` on optional byte counts: `None` and `0` are both falsy
(line 106: `d.get("total_bytes") or d.get("total_bytes_estimate")`). -/
def pyOrBytes (a b : Option ℕ) : Option ℕ :=
  match a with
  | none => b
  | some 0 => b
  | some (n + 1) => some (n + 1)

/-- Python truthiness of an optional byte count (line 115: `if total`). -/
def bytesKnown : Option ℕ → Bool
  | none => false
  | some 0 => false
  | some (_ + 1) => true

/-- Python `round(q, 2)`: round to two decimal places. -/
def round2 (q : ℚ) : ℚ := ((round (q * 100) : ℤ) : ℚ) / 100

/-- `progress_hook(d)` for the job `token`: the new `DOWNLOADS` map.
A missing token is a silent no-op (lines 101-103). Both source variants
have the same hook body (src/app.py 99-120, https variant 136-154). -/
def progress_hook (downloads : AList JobRecord) (token : String) (d : HookEvent) :
    AList JobRecord :=
  match AList.get? downloads token with
  | none => downloads
  | some info =>
    if d.status = "downloading" then
      let total := pyOrBytes d.total_bytes d.total_bytes_estimate
      let downloaded := d.downloaded_bytes.getD 0
      let pct : ℚ :=
        if bytesKnown total then
          round2 (((downloaded : ℚ) / ((total.getD 0 : ℕ) : ℚ)) * 100)
        else 0
      AList.set downloads token
        { info with
            status := "downloading"
            downloaded_bytes := downloaded
            total_bytes := total
            speed := d.speed
            eta := d.eta
            percent := pct }
    else if d.status = "finished" then
      AList.set downloads token { info with status := "processing", percent := 100 }
    else downloads

/-! ### Worker finalization (`download_worker`, src/app.py lines 148-165) -/

/-- A one-shot delayed cleanup action armed by the worker. -/
inductive Cleanup where
  | tokenExpire (token : String) (delay : ℕ)
  | fileDelete (path : String) (delay : ℕ)
deriving DecidableEq

/-- The success path of `download_worker` after `ydl.download` returns
(src/app.py lines 152-159): mutate the record to done (guarded by
`if token in DOWNLOADS`), then arm both cleanup timers. -/
def worker_on_success (downloads : AList JobRecord) (token : String)
    (output_path : String) : AList JobRecord × List Cleanup :=
  let downloads' :=
    match AList.get? downloads token with
    | none => downloads
    | some info =>
      AList.set downloads token { info with status := "done", file := some output_path }
  (downloads',
   [Cleanup.tokenExpire token TOKEN_EXPIRE_SECONDS,
    Cleanup.fileDelete output_path FILE_DELETE_SECONDS])

/-- The except path of `download_worker` (src/app.py lines 161-165): mutate
the record to error (guarded by `if token in DOWNLOADS`); no cleanup timer
is armed on this path. `msg` is `str(e)`. -/
def worker_on_error (downloads : AList JobRecord) (token : String) (msg : String) :
    AList JobRecord × List Cleanup :=
  let downloads' :=
    match AList.get? downloads token with
    | none => downloads
    | some info =>
      AList.set downloads token { info with status := "error", error := some msg }
  (downloads', [])

namespace Https

/-- The success path of the https variant's `download_worker`
(src/app-https-requires-certbot.py lines 171-175): `DOWNLOADS[token][...]`
raises `KeyError` when the token is absent (no membership guard). -/
def worker_on_success (downloads : AList JobRecord) (token : String)
    (output_path : String) : Except String (AList JobRecord × List Cleanup) :=
  match AList.get? downloads token with
  | none => Except.error "KeyError"
  | some info =>
    Except.ok
      (AList.set downloads token { info with status := "done", file := some output_path },
       [Cleanup.fileDelete output_path FILE_DELETE_SECONDS,
        Cleanup.tokenExpire token TOKEN_EXPIRE_SECONDS])

/-- The except path of the https variant's `download_worker`
(src/app-https-requires-certbot.py lines 176-179): `DOWNLOADS[token][...]`
raises `KeyError` when the token is absent (no membership guard). -/
def worker_on_error (downloads : AList JobRecord) (token : String) (msg : String) :
    Except String (AList JobRecord) :=
  match AList.get? downloads token with
  | none => Except.error "KeyError"
  | some info =>
    Except.ok (AList.set downloads token { info with status := "error", error := some msg })

end Https

/-! ### The `/watch` endpoint (src/app.py lines 171-249, JSON mode) -/

/-- The query parameters of a `/watch` request that the handler reads.
An absent parameter is `none`; a parameter present with an empty value is
`some ""` (Python's `request.args.get` does not distinguish truthiness,
the handler does). -/
structure WatchReq where
  v : Option String
  res : Option String
  audio : Option String
  format : Option String
  token : Option String
deriving DecidableEq

/-- The shared mutable state the handlers touch: `DOWNLOADS` and `IP_LIMITS`. -/
structure ServerState where
  downloads : AList JobRecord
  ip_limits : AList IpEntry
deriving DecidableEq

/-- The outcome of a `/watch` call in JSON mode. `badRequest` is HTTP 400,
`rateLimited` 429, `conflict` 409; `accepted` carries the token returned in
the JSON body. -/
inductive WatchResult where
  | badRequest
  | rateLimited
  | conflict
  | accepted (token : String)
deriving DecidableEq

/-- Python truthiness of an optional string: absent and `""` are falsy. -/
def pyTruthyStr : Option String → Bool
  | none => false
  | some s => s ≠ ""

/-- Python `a or b` for an optional string `a` (line 190:
`request.args.get("token") or uuid.uuid4().hex`). -/
def pyOrStr (a : Option String) (b : String) : String :=
  match a with
  | none => b
  | some s => if s = "" then b else s

/-- Python `s.lower()` (line 189), as a character-wise ASCII case map —
the handler only compares the result against "mp4" and "webm". -/
def strLower (s : String) : String := ⟨s.data.map Char.toLower⟩

/-- The `watch` handler in JSON mode, up to and including the registry
insertion (the `executor.submit` of the worker is the asynchronous part,
modelled separately by `worker_on_success` / `worker_on_error` /
`progress_hook`). `todayStr`, `freshToken` and `now` are the values of
`today()`, `uuid.uuid4().hex` and `time.time()` during the call. -/
def watch (st : ServerState) (req : WatchReq) (ip : String) (todayStr : String)
    (freshToken : String) (now : ℚ) : WatchResult × ServerState :=
  if ¬ pyTruthyStr req.v then (WatchResult.badRequest, st)
  else
    let lim := check_ip_limit st.ip_limits ip todayStr
    let st1 : ServerState := { st with ip_limits := lim.2 }
    if lim.1 = false then (WatchResult.rateLimited, st1)
    else
      let fmt := strLower (req.format.getD "mp4")
      let token := pyOrStr req.token freshToken
      if fmt ≠ "mp4" ∧ fmt ≠ "webm" then (WatchResult.badRequest, st1)
      else if (AList.get? st1.downloads token).isSome then (WatchResult.conflict, st1)
      else
        (WatchResult.accepted token,
         { st1 with
             downloads :=
               AList.set st1.downloads token
                 (initRecord token ip (req.v.getD "") fmt now) })

/-! ### The `/progress` endpoint (src/app.py lines 252-278) -/

/-- The JSON body of a successful `/progress` response, without the
wall-clock `elapsed` field (`round(time.time() - info["started"], 2)`,
a pure function of the current time and `started`). -/
structure ProgressInfo where
  token : String
  status : String
  percent : ℚ
  speed_bps : Option ℚ
  eta_seconds : Option ℚ
  downloaded_bytes : ℕ
  total_bytes : Option ℕ
  format : String
  ready : Bool
  error : Option String
deriving DecidableEq

/-- The outcome of a `/progress` call: 400, 404, 403 or the JSON body. -/
inductive ProgressResult where
  | badRequest
  | notFound
  | forbidden
  | ok (info : ProgressInfo)
deriving DecidableEq

/-- The `progress` handler. `ip` is `request.remote_addr`. -/
def progress (downloads : AList JobRecord) (tokenParam : Option String)
    (ip : String) : ProgressResult :=
  if ¬ pyTruthyStr tokenParam then ProgressResult.badRequest
  else
    let token := tokenParam.getD ""
    match AList.get? downloads token with
    | none => ProgressResult.notFound
    | some info =>
      if info.ip ≠ ip then ProgressResult.forbidden
      else
        ProgressResult.ok
          { token := token
            status := info.status
            percent := info.percent
            speed_bps := info.speed
            eta_seconds := info.eta
            downloaded_bytes := info.downloaded_bytes
            total_bytes := info.total_bytes
            format := info.fmt
            ready := info.status = "done"
            error := info.error }

/-! ### The `/download` endpoint (src/app.py lines 281-298; the https
variant, lines 268-280, has the same check order and outcomes) -/

/-- The outcome of a `/download` call: `badRequest` is 400, `notReady` is
the 409 "Not ready or expired" rejection, `forbidden` 403, `sendFile` the
served file path. -/
inductive DownloadResult where
  | badRequest
  | notReady
  | forbidden
  | sendFile (path : Option String)
deriving DecidableEq

/-- The `download` handler: note the `status != "done"` rejection is
tested before the ownership check. -/
def download (downloads : AList JobRecord) (tokenParam : Option String)
    (ip : String) : DownloadResult :=
  if ¬ pyTruthyStr tokenParam then DownloadResult.badRequest
  else
    match AList.get? downloads (tokenParam.getD "") with
    | none => DownloadResult.notReady
    | some info =>
      if info.status ≠ "done" then DownloadResult.notReady
      else if info.ip ≠ ip then DownloadResult.forbidden
      else DownloadResult.sendFile info.file

/-! ### Status ordering (spec §3: queued → downloading → processing →
done, or ends in error) -/

/-- Position of a status string in the spec's lifecycle order; the two
terminal states share the top rank. -/
def statusRank (s : String) : ℕ :=
  if s = "queued" then 0
  else if s = "downloading" then 1
  else if s = "processing" then 2
  else if s = "done" then 3
  else if s = "error" then 3
  else 0

/-! ### Registry-expiry timer firing (`schedule_token_expire`,
src/app.py lines 71-76) -/

/-- The body of the `schedule_token_expire` timer once the delay elapses:
`DOWNLOADS.pop(token, None)`. -/
def token_expire_fire (downloads : AList JobRecord) (token : String) :
    AList JobRecord :=
  AList.pop downloads token

/-! ### Concrete test states -/

/-- A one-job registry holding a freshly queued record. -/
def queuedReg : AList JobRecord := [("t", initRecord "t" "1.1.1.1" "abc123" "mp4" 0)]

/-- A one-job registry whose record has reached the processing state. -/
def procReg : AList JobRecord :=
  [("t", { initRecord "t" "1.1.1.1" "abc123" "mp4" 0 with
             status := "processing"
             percent := 100 })]

/-- A one-job registry whose record is mid-download. -/
def dlReg : AList JobRecord :=
  [("t", { initRecord "t" "1.1.1.1" "abc123" "mp4" 0 with status := "downloading" })]

/-- A downloading-phase hook event with 50 of 200 bytes fetched, as yt-dlp
emits while a stream is in flight. -/
def dlEvent : HookEvent :=
  { status := "downloading"
    downloaded_bytes := some 50
    total_bytes := some 200
    total_bytes_estimate := none
    speed := none
    eta := none }

/-- A downloading-phase hook event carrying no byte information at all. -/
def dlEventBare : HookEvent :=
  { status := "downloading"
    downloaded_bytes := none
    total_bytes := none
    total_bytes_estimate := none
    speed := none
    eta := none }

/-! ### Lookup lemmas for the dict model -/

theorem AList.get?_set_self {α : Type} (m : AList α) (k : String) (v : α) :
    AList.get? (AList.set m k v) k = some v := by
  induction m with
  | nil => simp [AList.set, AList.get?]
  | cons hd tl ih =>
    obtain ⟨k', v'⟩ := hd
    by_cases h : k' = k
    · simp [AList.set, AList.get?, h]
    · simp [AList.set, AList.get?, h, ih]

theorem AList.get?_set_ne {α : Type} (m : AList α) (k k' : String) (v : α)
    (h : k ≠ k') : AList.get? (AList.set m k v) k' = AList.get? m k' := by
  induction m with
  | nil => simp [AList.set, AList.get?, h]
  | cons hd tl ih =>
    obtain ⟨k1, v1⟩ := hd
    by_cases h1 : k1 = k
    · subst h1
      simp [AList.set, AList.get?, h]
    · simp [AList.set, AList.get?, h1, ih]

/-! ### Rank bounds for the status order -/

theorem statusRank_le_three (s : String) : statusRank s ≤ 3 := by
  unfold statusRank
  split_ifs <;> omega

theorem statusRank_le_two (s : String) (h3 : s ≠ "done") (h4 : s ≠ "error") :
    statusRank s ≤ 2 := by
  unfold statusRank
  split_ifs <;> simp_all

theorem statusRank_le_one (s : String) (h2 : s ≠ "processing") (h3 : s ≠ "done")
    (h4 : s ≠ "error") : statusRank s ≤ 1 := by
  unfold statusRank
  split_ifs <;> simp_all

/-! ## The claims -/

/-- C8: the configured file-deletion delay is at least the configured
token-expiry delay, in both source variants (360 ≥ 300 and 10 ≥ 5), so a
file armed for deletion at a terminal instant outlives the token armed for
expiry at the same instant. -/
theorem C8_retention_order :
    TOKEN_EXPIRE_SECONDS ≤ FILE_DELETE_SECONDS ∧
    Https.TOKEN_EXPIRE_SECONDS ≤ Https.FILE_DELETE_SECONDS := by
  constructor <;> decide

/-- C1 (counterexample): a requester who is not the owner of a queued job
receives the 409 "Not ready or expired" rejection from `/download`, not
403 Forbidden — the status check precedes the ownership check. -/
theorem C1_counterexample :
    (AList.get? queuedReg "t").map JobRecord.ip = some "1.1.1.1" ∧
    (AList.get? queuedReg "t").map JobRecord.status = some "queued" ∧
    download queuedReg (some "t") "2.2.2.2" ≠ DownloadResult.forbidden ∧
    download queuedReg (some "t") "2.2.2.2" = DownloadResult.notReady := by
  refine ⟨rfl, rfl, by decide, rfl⟩

/-- C1 (amended): a `/progress` call from a non-owner always receives
Forbidden, for any status of the live job; a `/download` call from a
non-owner receives Forbidden only when the job's status is done — when it
is not done, the call receives the 409 Not-ready rejection regardless of
the requester's identity. -/
theorem C1_ownership (downloads : AList JobRecord) (token ip : String)
    (info : JobRecord) (htok : token ≠ "")
    (hget : AList.get? downloads token = some info)
    (hip : info.ip ≠ ip) :
    progress downloads (some token) ip = ProgressResult.forbidden ∧
    (info.status = "done" →
        download downloads (some token) ip = DownloadResult.forbidden) ∧
    (info.status ≠ "done" →
        download downloads (some token) ip = DownloadResult.notReady) := by
  refine ⟨?_, ?_, ?_⟩
  · simp [progress, pyTruthyStr, htok, hget, hip]
  · intro hdone
    simp [download, pyTruthyStr, htok, hget, hdone, hip]
  · intro hnd
    simp [download, pyTruthyStr, htok, hget, hnd]

/-- C1 (witness): on the concrete queued job owned by 1.1.1.1, requester
2.2.2.2 gets Forbidden from progress and Not-ready from download. -/
theorem C1_ownership_witness :
    progress queuedReg (some "t") "2.2.2.2" = ProgressResult.forbidden ∧
    download queuedReg (some "t") "2.2.2.2" = DownloadResult.notReady := by
  have h := C1_ownership queuedReg "t" "2.2.2.2"
      (initRecord "t" "1.1.1.1" "abc123" "mp4" 0) (by decide) rfl (by decide)
  exact ⟨h.1, h.2.2 (by decide)⟩

/-- C2 (counterexample): on a record whose status is processing, a
downloading-phase callback event sets the status back to downloading — a
regression, because the hook applies the event's phase unconditionally. -/
theorem C2_counterexample :
    (AList.get? procReg "t").map JobRecord.status = some "processing" ∧
    (AList.get? (progress_hook procReg "t" dlEvent) "t").map JobRecord.status
        = some "downloading" := by
  exact ⟨rfl, rfl⟩

/-- C2 (amended): the hook never decreases the status rank except in the
one case the counterexample exhibits — a downloading-phase event arriving
while the status is processing (which happens whenever the engine fetches
a further stream after finishing one); the worker's final mutations to
done and to error only move the status forward. -/
theorem C2_status_monotone :
    (∀ (downloads : AList JobRecord) (token : String) (d : HookEvent)
        (info info' : JobRecord),
      AList.get? downloads token = some info →
      AList.get? (progress_hook downloads token d) token = some info' →
      info.status ≠ "done" → info.status ≠ "error" →
      ¬ (info.status = "processing" ∧ d.status = "downloading") →
      statusRank info.status ≤ statusRank info'.status) ∧
    (∀ (downloads : AList JobRecord) (token path : String) (info : JobRecord),
      AList.get? downloads token = some info →
      ∃ info', AList.get? (worker_on_success downloads token path).1 token = some info' ∧
        info'.status = "done" ∧ statusRank info.status ≤ statusRank info'.status) ∧
    (∀ (downloads : AList JobRecord) (token msg : String) (info : JobRecord),
      AList.get? downloads token = some info →
      ∃ info', AList.get? (worker_on_error downloads token msg).1 token = some info' ∧
        info'.status = "error" ∧ statusRank info.status ≤ statusRank info'.status) := by
  refine ⟨?_, ?_, ?_⟩
  · intro downloads token d info info' hget hget' hdone herr hno
    by_cases hdl : d.status = "downloading"
    · have hproc : info.status ≠ "processing" := fun hp => hno ⟨hp, hdl⟩
      simp only [progress_hook, hget, hdl] at hget'
      rw [if_pos trivial, AList.get?_set_self] at hget'
      have hs : info'.status = "downloading" := by
        rw [← Option.some.inj hget']
      refine le_trans (statusRank_le_one _ hproc hdone herr) ?_
      rw [hs]
      decide
    · by_cases hfin : d.status = "finished"
      · simp only [progress_hook, hget, hfin] at hget'
        rw [if_neg (by decide : ¬ ("finished" : String) = "downloading"),
          if_pos trivial, AList.get?_set_self] at hget'
        have hs : info'.status = "processing" := by
          rw [← Option.some.inj hget']
        refine le_trans (statusRank_le_two _ hdone herr) ?_
        rw [hs]
        decide
      · simp only [progress_hook, hget, hdl, hfin, ite_false] at hget'
        rw [Option.some.inj hget']
  · intro downloads token path info hget
    refine ⟨{ info with status := "done", file := some path }, ?_, rfl, ?_⟩
    · have hset : (worker_on_success downloads token path).1
          = AList.set downloads token { info with status := "done", file := some path } := by
        unfold worker_on_success
        rw [hget]
      rw [hset]
      exact AList.get?_set_self _ _ _
    · exact le_trans (statusRank_le_three _) (by rfl)
  · intro downloads token msg info hget
    refine ⟨{ info with status := "error", error := some msg }, ?_, rfl, ?_⟩
    · have hset : (worker_on_error downloads token msg).1
          = AList.set downloads token { info with status := "error", error := some msg } := by
        unfold worker_on_error
        rw [hget]
      rw [hset]
      exact AList.get?_set_self _ _ _
    · exact le_trans (statusRank_le_three _) (by rfl)

/-- C2 (witness): a downloading event on the concrete queued job moves the
rank forward (queued → downloading), and the worker's error finalization
on the mid-download job moves it forward as well. -/
theorem C2_status_monotone_witness :
    statusRank "queued" ≤ statusRank "downloading" ∧
    (∃ info', AList.get? (worker_on_error dlReg "t" "boom").1 "t" = some info' ∧
      info'.status = "error" ∧ statusRank "downloading" ≤ statusRank info'.status) := by
  constructor
  · exact C2_status_monotone.1 queuedReg "t" dlEventBare
      (initRecord "t" "1.1.1.1" "abc123" "mp4" 0)
      { initRecord "t" "1.1.1.1" "abc123" "mp4" 0 with
          status := "downloading"
          downloaded_bytes := 0
          total_bytes := none
          speed := none
          eta := none
          percent := 0 }
      rfl (by rfl) (by decide) (by decide) (by decide)
  · exact C2_status_monotone.2.2 dlReg "t" "boom"
      { initRecord "t" "1.1.1.1" "abc123" "mp4" 0 with status := "downloading" } rfl

/-- C3 (counterexample): the worker's except path arms no cleanup action
at all — in particular it does not arm the registry-removal timer, so the
error record is never evicted. -/
theorem C3_counterexample :
    (AList.get? dlReg "t").isSome = true ∧
    (worker_on_error dlReg "t" "boom").2 = [] := by
  exact ⟨rfl, rfl⟩

/-- C3 (amended): on engine failure the worker mutates the record to
status error with the failure description, and arms neither the
file-deletion timer nor the registry-removal timer: the error record
remains in the registry indefinitely. -/
theorem C3_error_path (downloads : AList JobRecord) (token msg : String)
    (info : JobRecord) (hget : AList.get? downloads token = some info) :
    AList.get? (worker_on_error downloads token msg).1 token
        = some { info with status := "error", error := some msg } ∧
    (worker_on_error downloads token msg).2 = [] := by
  constructor
  · unfold worker_on_error
    simp only [hget]
    exact AList.get?_set_self _ _ _
  · rfl

/-- C3 (witness): the error finalization on the concrete mid-download job
yields an error record with the message stored, and arms nothing. -/
theorem C3_error_path_witness :
    AList.get? (worker_on_error dlReg "t" "boom").1 "t"
        = some { initRecord "t" "1.1.1.1" "abc123" "mp4" 0 with
                   status := "error"
                   error := some "boom" } ∧
    (worker_on_error dlReg "t" "boom").2 = [] :=
  C3_error_path dlReg "t" "boom"
    { initRecord "t" "1.1.1.1" "abc123" "mp4" 0 with status := "downloading" } rfl

/-- C4: in src/app.py the late-callback and final-mutation paths no-op on
a purged token, but in the https variant the worker's final done/error
mutation subscripts `DOWNLOADS[token]` without a membership guard and
raises KeyError on a purged token — the claim's "never an error" fails
there. -/
theorem C4_purged_token_mutation :
    progress_hook [] "t" dlEvent = [] ∧
    (worker_on_error [] "t" "boom").1 = [] ∧
    (worker_on_success [] "t" "downloads/t.mp4").1 = [] ∧
    Https.worker_on_error [] "t" "boom" = Except.error "KeyError" ∧
    Https.worker_on_success [] "t" "downloads/t.mp4" = Except.error "KeyError" := by
  exact ⟨rfl, rfl, rfl, rfl, rfl⟩

/-! ### Iterated same-day rate-limiter calls -/

/-- The `IP_LIMITS` state after `n` successive `check_ip_limit` calls for
the same client on the same UTC day. -/
def iterLimits (limits : AList IpEntry) (ip todayStr : String) : ℕ → AList IpEntry
  | 0 => limits
  | n + 1 => (check_ip_limit (iterLimits limits ip todayStr n) ip todayStr).2

/-- The admission decision of the `(n+1)`-th same-day call. -/
def nthAdmit (limits : AList IpEntry) (ip todayStr : String) (n : ℕ) : Bool :=
  (check_ip_limit (iterLimits limits ip todayStr n) ip todayStr).1

theorem check_ip_limit_stale (limits : AList IpEntry) (ip todayStr : String)
    (h : ∀ e, AList.get? limits ip = some e → e.date ≠ todayStr) :
    check_ip_limit limits ip todayStr = (true, AList.set limits ip ⟨todayStr, 1⟩) := by
  unfold check_ip_limit
  cases hc : AList.get? limits ip with
  | none => rfl
  | some e => simp [h e hc]

theorem check_ip_limit_capped (limits : AList IpEntry) (ip todayStr : String)
    (e : IpEntry) (hc : AList.get? limits ip = some e) (hd : e.date = todayStr)
    (hcap : MAX_DOWNLOADS_PER_DAY ≤ e.count) :
    check_ip_limit limits ip todayStr = (false, limits) := by
  unfold check_ip_limit
  simp [hc, hd, Nat.not_lt.mpr hcap]

theorem check_ip_limit_under (limits : AList IpEntry) (ip todayStr : String)
    (e : IpEntry) (hc : AList.get? limits ip = some e) (hd : e.date = todayStr)
    (hcap : e.count < MAX_DOWNLOADS_PER_DAY) :
    check_ip_limit limits ip todayStr
        = (true, AList.set limits ip ⟨e.date, e.count + 1⟩) := by
  unfold check_ip_limit
  simp [hc, hd, Nat.not_le.mpr hcap]

theorem iterLimits_entry (limits : AList IpEntry) (ip todayStr : String)
    (hstale : ∀ e, AList.get? limits ip = some e → e.date ≠ todayStr) :
    ∀ n, AList.get? (iterLimits limits ip todayStr (n + 1)) ip
        = some ⟨todayStr, min (n + 1) MAX_DOWNLOADS_PER_DAY⟩ := by
  intro n
  induction n with
  | zero =>
    show AList.get? (check_ip_limit limits ip todayStr).2 ip = _
    rw [check_ip_limit_stale limits ip todayStr hstale]
    rw [AList.get?_set_self]
    rfl
  | succ n ih =>
    show AList.get? (check_ip_limit (iterLimits limits ip todayStr (n + 1)) ip todayStr).2 ip = _
    by_cases h : n + 1 < MAX_DOWNLOADS_PER_DAY
    · rw [check_ip_limit_under _ _ _ _ ih rfl
        (show min (n + 1) MAX_DOWNLOADS_PER_DAY < MAX_DOWNLOADS_PER_DAY by
          simp only [MAX_DOWNLOADS_PER_DAY] at h ⊢
          omega)]
      rw [AList.get?_set_self]
      show some (⟨todayStr, min (n + 1) MAX_DOWNLOADS_PER_DAY + 1⟩ : IpEntry) = _
      have hmin : min (n + 1) MAX_DOWNLOADS_PER_DAY + 1
          = min (n + 1 + 1) MAX_DOWNLOADS_PER_DAY := by
        simp only [MAX_DOWNLOADS_PER_DAY] at h ⊢
        omega
      rw [hmin]
    · rw [check_ip_limit_capped _ _ _ _ ih rfl
        (show MAX_DOWNLOADS_PER_DAY ≤ min (n + 1) MAX_DOWNLOADS_PER_DAY by
          simp only [MAX_DOWNLOADS_PER_DAY] at h ⊢
          omega)]
      rw [ih]
      have hmin : min (n + 1) MAX_DOWNLOADS_PER_DAY
          = min (n + 1 + 1) MAX_DOWNLOADS_PER_DAY := by
        simp only [MAX_DOWNLOADS_PER_DAY] at h ⊢
        omega
      rw [hmin]

theorem nthAdmit_iff (limits : AList IpEntry) (ip todayStr : String)
    (hstale : ∀ e, AList.get? limits ip = some e → e.date ≠ todayStr) (n : ℕ) :
    nthAdmit limits ip todayStr n = true ↔ n < MAX_DOWNLOADS_PER_DAY := by
  cases n with
  | zero =>
    show (check_ip_limit limits ip todayStr).1 = true ↔ _
    rw [check_ip_limit_stale limits ip todayStr hstale]
    simp [MAX_DOWNLOADS_PER_DAY]
  | succ n =>
    show (check_ip_limit (iterLimits limits ip todayStr (n + 1)) ip todayStr).1 = true ↔ _
    have he := iterLimits_entry limits ip todayStr hstale n
    by_cases h : n + 1 < MAX_DOWNLOADS_PER_DAY
    · rw [check_ip_limit_under _ _ _ _ he rfl
        (show min (n + 1) MAX_DOWNLOADS_PER_DAY < MAX_DOWNLOADS_PER_DAY by
          simp only [MAX_DOWNLOADS_PER_DAY] at h ⊢
          omega)]
      simpa using h
    · rw [check_ip_limit_capped _ _ _ _ he rfl
        (show MAX_DOWNLOADS_PER_DAY ≤ min (n + 1) MAX_DOWNLOADS_PER_DAY by
          simp only [MAX_DOWNLOADS_PER_DAY] at h ⊢
          omega)]
      simpa using h

/-- C5: the rate limiter resets to count 1 and admits when the entry is
absent or stale; rejects without any mutation at or above the daily cap;
increments and admits below the cap (also leaving every other client's
entry untouched); and over successive same-day calls starting from an
absent-or-stale entry exactly the first `MAX_DOWNLOADS_PER_DAY` calls are
admitted — the `(MAX_DOWNLOADS_PER_DAY + 1)`-th is rejected. -/
theorem C5_rate_limiter (limits : AList IpEntry) (ip todayStr : String) :
    (AList.get? limits ip = none →
      check_ip_limit limits ip todayStr
          = (true, AList.set limits ip ⟨todayStr, 1⟩)) ∧
    (∀ e, AList.get? limits ip = some e → e.date ≠ todayStr →
      check_ip_limit limits ip todayStr
          = (true, AList.set limits ip ⟨todayStr, 1⟩)) ∧
    (∀ e, AList.get? limits ip = some e → e.date = todayStr →
      MAX_DOWNLOADS_PER_DAY ≤ e.count →
      check_ip_limit limits ip todayStr = (false, limits)) ∧
    (∀ e, AList.get? limits ip = some e → e.date = todayStr →
      e.count < MAX_DOWNLOADS_PER_DAY →
      AList.get? (check_ip_limit limits ip todayStr).2 ip
            = some ⟨todayStr, e.count + 1⟩ ∧
        (check_ip_limit limits ip todayStr).1 = true ∧
        (∀ ip', ip ≠ ip' → AList.get? (check_ip_limit limits ip todayStr).2 ip'
            = AList.get? limits ip')) ∧
    ((∀ e, AList.get? limits ip = some e → e.date ≠ todayStr) →
      ∀ n, nthAdmit limits ip todayStr n = true ↔ n < MAX_DOWNLOADS_PER_DAY) := by
  refine ⟨?_, ?_, ?_, ?_, nthAdmit_iff limits ip todayStr⟩
  · intro hc
    exact check_ip_limit_stale limits ip todayStr (fun e he => absurd he (by simp [hc]))
  · intro e hc hd
    exact check_ip_limit_stale limits ip todayStr
      (fun e' he' => by rw [hc] at he'; cases Option.some.inj he'; exact hd)
  · intro e hc hd hcap
    exact check_ip_limit_capped limits ip todayStr e hc hd hcap
  · intro e hc hd hcap
    rw [check_ip_limit_under limits ip todayStr e hc hd hcap]
    refine ⟨?_, rfl, ?_⟩
    · rw [AList.get?_set_self, hd]
    · intro ip' hne
      exact AList.get?_set_ne _ _ _ _ hne

/-- C5 (witness): starting from an empty limit table, the first same-day
call is admitted and the eleventh (index `MAX_DOWNLOADS_PER_DAY`) is
rejected. -/
theorem C5_rate_limiter_witness :
    nthAdmit [] "1.1.1.1" "2026-10-12" 0 = true ∧
    nthAdmit [] "1.1.1.1" "2026-10-12" MAX_DOWNLOADS_PER_DAY ≠ true := by
  have h := (C5_rate_limiter [] "1.1.1.1" "2026-10-12").2.2.2.2
      (fun e he => by simp [AList.get?] at he)
  constructor
  · exact (h 0).mpr (by decide)
  · intro hadm
    exact absurd ((h MAX_DOWNLOADS_PER_DAY).mp hadm) (by decide)

/-! ### Path equations for the `/watch` handler -/

theorem watch_noV (st : ServerState) (req : WatchReq) (ip todayStr freshToken : String)
    (now : ℚ) (hv : ¬ pyTruthyStr req.v = true) :
    watch st req ip todayStr freshToken now = (WatchResult.badRequest, st) := by
  simp only [watch]
  rw [if_pos hv]

theorem watch_limited (st : ServerState) (req : WatchReq) (ip todayStr freshToken : String)
    (now : ℚ) (hv : pyTruthyStr req.v = true)
    (hlim : (check_ip_limit st.ip_limits ip todayStr).1 = false) :
    watch st req ip todayStr freshToken now
        = (WatchResult.rateLimited,
           { st with ip_limits := (check_ip_limit st.ip_limits ip todayStr).2 }) := by
  simp only [watch]
  rw [if_neg (by simp [hv]), if_pos hlim]

theorem watch_badFormat (st : ServerState) (req : WatchReq) (ip todayStr freshToken : String)
    (now : ℚ) (hv : pyTruthyStr req.v = true)
    (hlim : (check_ip_limit st.ip_limits ip todayStr).1 = true)
    (h1 : strLower (req.format.getD "mp4") ≠ "mp4")
    (h2 : strLower (req.format.getD "mp4") ≠ "webm") :
    watch st req ip todayStr freshToken now
        = (WatchResult.badRequest,
           { st with ip_limits := (check_ip_limit st.ip_limits ip todayStr).2 }) := by
  simp only [watch]
  rw [if_neg (by simp [hv]), if_neg (by simp [hlim]), if_pos ⟨h1, h2⟩]

theorem watch_conflict (st : ServerState) (req : WatchReq) (ip todayStr freshToken : String)
    (now : ℚ) (hv : pyTruthyStr req.v = true)
    (hlim : (check_ip_limit st.ip_limits ip todayStr).1 = true)
    (hfmt : strLower (req.format.getD "mp4") = "mp4" ∨ strLower (req.format.getD "mp4") = "webm")
    (hdup : (AList.get? st.downloads (pyOrStr req.token freshToken)).isSome = true) :
    watch st req ip todayStr freshToken now
        = (WatchResult.conflict,
           { st with ip_limits := (check_ip_limit st.ip_limits ip todayStr).2 }) := by
  simp only [watch]
  rw [if_neg (by simp [hv]), if_neg (by simp [hlim]),
    if_neg (fun hc => hfmt.elim (fun h => hc.1 h) (fun h => hc.2 h)), if_pos hdup]

theorem watch_accepted (st : ServerState) (req : WatchReq) (ip todayStr freshToken : String)
    (now : ℚ) (hv : pyTruthyStr req.v = true)
    (hlim : (check_ip_limit st.ip_limits ip todayStr).1 = true)
    (hfmt : strLower (req.format.getD "mp4") = "mp4" ∨ strLower (req.format.getD "mp4") = "webm")
    (hnew : (AList.get? st.downloads (pyOrStr req.token freshToken)).isSome = false) :
    watch st req ip todayStr freshToken now
        = (WatchResult.accepted (pyOrStr req.token freshToken),
           { downloads :=
               AList.set st.downloads (pyOrStr req.token freshToken)
                 (initRecord (pyOrStr req.token freshToken) ip (req.v.getD "")
                   (strLower (req.format.getD "mp4")) now),
             ip_limits := (check_ip_limit st.ip_limits ip todayStr).2 }) := by
  simp only [watch]
  rw [if_neg (by simp [hv]), if_neg (by simp [hlim]),
    if_neg (fun hc => hfmt.elim (fun h => hc.1 h) (fun h => hc.2 h)),
    if_neg (by simp [hnew])]

/-- C6: a missing (or empty) subject identifier yields BadRequest; an
invalid container format yields BadRequest; a quota-exhausted client
yields RateLimited; a caller-supplied token that is already live yields
Conflict; and an accepted submission stores a record with status queued
and percent 0 under the effective token, which is the fresh generated one
when the caller supplied none. -/
theorem C6_watch (st : ServerState) (req : WatchReq) (ip todayStr freshToken : String)
    (now : ℚ) :
    (pyTruthyStr req.v = false →
      (watch st req ip todayStr freshToken now).1 = WatchResult.badRequest) ∧
    (pyTruthyStr req.v = true →
      (check_ip_limit st.ip_limits ip todayStr).1 = false →
      (watch st req ip todayStr freshToken now).1 = WatchResult.rateLimited) ∧
    (pyTruthyStr req.v = true →
      (check_ip_limit st.ip_limits ip todayStr).1 = true →
      strLower (req.format.getD "mp4") ≠ "mp4" →
      strLower (req.format.getD "mp4") ≠ "webm" →
      (watch st req ip todayStr freshToken now).1 = WatchResult.badRequest) ∧
    (pyTruthyStr req.v = true →
      (check_ip_limit st.ip_limits ip todayStr).1 = true →
      (strLower (req.format.getD "mp4") = "mp4" ∨ strLower (req.format.getD "mp4") = "webm") →
      (AList.get? st.downloads (pyOrStr req.token freshToken)).isSome = true →
      (watch st req ip todayStr freshToken now).1 = WatchResult.conflict) ∧
    (pyTruthyStr req.v = true →
      (check_ip_limit st.ip_limits ip todayStr).1 = true →
      (strLower (req.format.getD "mp4") = "mp4" ∨ strLower (req.format.getD "mp4") = "webm") →
      (AList.get? st.downloads (pyOrStr req.token freshToken)).isSome = false →
      (watch st req ip todayStr freshToken now).1
          = WatchResult.accepted (pyOrStr req.token freshToken) ∧
        (∃ rec, AList.get? (watch st req ip todayStr freshToken now).2.downloads
              (pyOrStr req.token freshToken) = some rec ∧
            rec.status = "queued" ∧ rec.percent = 0) ∧
        (req.token = none → pyOrStr req.token freshToken = freshToken)) := by
  refine ⟨?_, ?_, ?_, ?_, ?_⟩
  · intro hv
    rw [watch_noV st req ip todayStr freshToken now (by simp [hv])]
  · intro hv hlim
    rw [watch_limited st req ip todayStr freshToken now hv hlim]
  · intro hv hlim h1 h2
    rw [watch_badFormat st req ip todayStr freshToken now hv hlim h1 h2]
  · intro hv hlim hfmt hdup
    rw [watch_conflict st req ip todayStr freshToken now hv hlim hfmt hdup]
  · intro hv hlim hfmt hnew
    rw [watch_accepted st req ip todayStr freshToken now hv hlim hfmt hnew]
    refine ⟨rfl, ⟨_, AList.get?_set_self _ _ _, rfl, rfl⟩, ?_⟩
    intro hnone
    rw [hnone]
    rfl

/-- A submission request with a subject, default container and no caller
token. -/
def reqPlain : WatchReq :=
  { v := some "abc123", res := none, audio := none, format := none, token := none }

/-- C6 (witness): on an empty server state, the plain submission is
accepted with the fresh token and stores a queued, zero-percent record. -/
theorem C6_watch_witness :
    (watch ⟨[], []⟩ reqPlain "1.1.1.1" "2026-10-12" "f123" 0).1
        = WatchResult.accepted "f123" ∧
    (∃ rec, AList.get? (watch ⟨[], []⟩ reqPlain "1.1.1.1" "2026-10-12" "f123" 0).2.downloads
          "f123" = some rec ∧ rec.status = "queued" ∧ rec.percent = 0) := by
  have h := (C6_watch ⟨[], []⟩ reqPlain "1.1.1.1" "2026-10-12" "f123" 0).2.2.2.2
      rfl rfl (Or.inl rfl) rfl
  exact ⟨h.1, h.2.1⟩

/-- A finished-phase hook event. -/
def finEvent : HookEvent :=
  { status := "finished"
    downloaded_bytes := none
    total_bytes := none
    total_bytes_estimate := none
    speed := none
    eta := none }

/-- C7: a downloading-phase event sets status downloading, stores the
byte count, total, speed and ETA from the event, and sets percent to
`round(downloaded / total * 100, 2)` when the total is known (non-null and
non-zero under Python truthiness) and to 0 otherwise; a finished-phase
event sets status processing and percent 100. -/
theorem C7_progress_bridge (downloads : AList JobRecord) (token : String)
    (d : HookEvent) (info : JobRecord)
    (hget : AList.get? downloads token = some info) :
    (d.status = "downloading" →
      ∀ t : ℕ, pyOrBytes d.total_bytes d.total_bytes_estimate = some t → 0 < t →
      (AList.get? (progress_hook downloads token d) token).map JobRecord.percent
          = some (round2 (((d.downloaded_bytes.getD 0 : ℕ) : ℚ) / ((t : ℕ) : ℚ) * 100))) ∧
    (d.status = "downloading" →
      bytesKnown (pyOrBytes d.total_bytes d.total_bytes_estimate) = false →
      (AList.get? (progress_hook downloads token d) token).map JobRecord.percent
          = some 0) ∧
    (d.status = "downloading" →
      (AList.get? (progress_hook downloads token d) token).map JobRecord.status
          = some "downloading" ∧
      (AList.get? (progress_hook downloads token d) token).map JobRecord.downloaded_bytes
          = some (d.downloaded_bytes.getD 0) ∧
      (AList.get? (progress_hook downloads token d) token).map JobRecord.total_bytes
          = some (pyOrBytes d.total_bytes d.total_bytes_estimate) ∧
      (AList.get? (progress_hook downloads token d) token).map JobRecord.speed
          = some d.speed ∧
      (AList.get? (progress_hook downloads token d) token).map JobRecord.eta
          = some d.eta) ∧
    (d.status = "finished" →
      (AList.get? (progress_hook downloads token d) token).map JobRecord.status
          = some "processing" ∧
      (AList.get? (progress_hook downloads token d) token).map JobRecord.percent
          = some 100) := by
  have hdlcase : d.status = "downloading" →
      AList.get? (progress_hook downloads token d) token = some
        { info with
            status := "downloading"
            downloaded_bytes := d.downloaded_bytes.getD 0
            total_bytes := pyOrBytes d.total_bytes d.total_bytes_estimate
            speed := d.speed
            eta := d.eta
            percent :=
              if bytesKnown (pyOrBytes d.total_bytes d.total_bytes_estimate) then
                round2 (((d.downloaded_bytes.getD 0 : ℕ) : ℚ)
                  / (((pyOrBytes d.total_bytes d.total_bytes_estimate).getD 0 : ℕ) : ℚ) * 100)
              else 0 } := by
    intro hdl
    simp only [progress_hook, hget, hdl]
    rw [if_pos trivial, AList.get?_set_self]
  have hfincase : d.status = "finished" →
      AList.get? (progress_hook downloads token d) token
          = some { info with status := "processing", percent := 100 } := by
    intro hfin
    simp only [progress_hook, hget, hfin]
    rw [if_neg (by decide : ¬ ("finished" : String) = "downloading"), if_pos trivial,
      AList.get?_set_self]
  refine ⟨?_, ?_, ?_, ?_⟩
  · intro hdl t ht hpos
    rw [hdlcase hdl]
    simp only [Option.map_some']
    rw [ht]
    cases t with
    | zero => exact absurd hpos (by omega)
    | succ m =>
      have hbk : bytesKnown (some (m + 1)) = true := rfl
      simp [hbk]
  · intro hdl hunk
    rw [hdlcase hdl]
    simp only [Option.map_some']
    rw [if_neg (by simp [hunk])]
  · intro hdl
    rw [hdlcase hdl]
    exact ⟨rfl, rfl, rfl, rfl, rfl⟩
  · intro hfin
    rw [hfincase hfin]
    exact ⟨rfl, rfl⟩

/-- C7 (witness): on the concrete queued job, the 50-of-200-bytes event
yields percent `round(50/200*100, 2)` and the finished event yields
status processing with percent 100. -/
theorem C7_progress_bridge_witness :
    (AList.get? (progress_hook queuedReg "t" dlEvent) "t").map JobRecord.percent
        = some (round2 (((dlEvent.downloaded_bytes.getD 0 : ℕ) : ℚ) / ((200 : ℕ) : ℚ) * 100)) ∧
    (AList.get? (progress_hook queuedReg "t" finEvent) "t").map JobRecord.status
        = some "processing" := by
  constructor
  · exact (C7_progress_bridge queuedReg "t" dlEvent
        (initRecord "t" "1.1.1.1" "abc123" "mp4" 0) rfl).1 rfl 200 rfl (by decide)
  · exact ((C7_progress_bridge queuedReg "t" finEvent
        (initRecord "t" "1.1.1.1" "abc123" "mp4" 0) rfl).2.2.2 rfl).1

/-- The new rate-limit entry an admitted call leaves for the client: count
one on a fresh or stale day, the old count plus one otherwise. -/
theorem check_ip_limit_admitted_entry (limits : AList IpEntry) (ip todayStr : String)
    (hadm : (check_ip_limit limits ip todayStr).1 = true) :
    ∃ c, AList.get? (check_ip_limit limits ip todayStr).2 ip = some ⟨todayStr, c⟩ ∧
      (c = 1 ∨ ∃ e, AList.get? limits ip = some e ∧ c = e.count + 1) := by
  cases hc : AList.get? limits ip with
  | none =>
    rw [check_ip_limit_stale limits ip todayStr (fun e he => by rw [hc] at he; cases he)]
    exact ⟨1, AList.get?_set_self _ _ _, Or.inl rfl⟩
  | some e =>
    by_cases hd : e.date = todayStr
    · by_cases hcap : e.count < MAX_DOWNLOADS_PER_DAY
      · rw [check_ip_limit_under limits ip todayStr e hc hd hcap]
        refine ⟨e.count + 1, ?_, Or.inr ⟨e, rfl, rfl⟩⟩
        rw [AList.get?_set_self, hd]
      · rw [check_ip_limit_capped limits ip todayStr e hc hd (by omega)] at hadm
        cases hadm
    · rw [check_ip_limit_stale limits ip todayStr
        (fun e' he' => by rw [hc] at he'; cases Option.some.inj he'; exact hd)]
      exact ⟨1, AList.get?_set_self _ _ _, Or.inl rfl⟩

/-- C9: a submission that passes the subject check and is admitted by the
rate limiter but is then rejected — invalid container, or duplicate live
token — leaves the job registry unchanged while the client's rate-limit
entry has already been consumed: it now reads count 1 (fresh or stale
day) or the old count plus one. -/
theorem C9_rejected_consumes_quota (st : ServerState) (req : WatchReq)
    (ip todayStr freshToken : String) (now : ℚ)
    (hv : pyTruthyStr req.v = true)
    (hadm : (check_ip_limit st.ip_limits ip todayStr).1 = true)
    (hrej : (strLower (req.format.getD "mp4") ≠ "mp4" ∧
             strLower (req.format.getD "mp4") ≠ "webm") ∨
            ((strLower (req.format.getD "mp4") = "mp4" ∨
              strLower (req.format.getD "mp4") = "webm") ∧
             (AList.get? st.downloads (pyOrStr req.token freshToken)).isSome = true)) :
    (watch st req ip todayStr freshToken now).2.downloads = st.downloads ∧
    (watch st req ip todayStr freshToken now).2.ip_limits
        = (check_ip_limit st.ip_limits ip todayStr).2 ∧
    ((watch st req ip todayStr freshToken now).1 = WatchResult.badRequest ∨
     (watch st req ip todayStr freshToken now).1 = WatchResult.conflict) ∧
    (∃ c, AList.get? (watch st req ip todayStr freshToken now).2.ip_limits ip
          = some ⟨todayStr, c⟩ ∧
       (c = 1 ∨ ∃ e, AList.get? st.ip_limits ip = some e ∧ c = e.count + 1)) := by
  rcases hrej with ⟨h1, h2⟩ | ⟨hfmt, hdup⟩
  · rw [watch_badFormat st req ip todayStr freshToken now hv hadm h1 h2]
    exact ⟨rfl, rfl, Or.inl rfl,
      check_ip_limit_admitted_entry st.ip_limits ip todayStr hadm⟩
  · rw [watch_conflict st req ip todayStr freshToken now hv hadm hfmt hdup]
    exact ⟨rfl, rfl, Or.inr rfl,
      check_ip_limit_admitted_entry st.ip_limits ip todayStr hadm⟩

/-- A submission request that duplicates the live token of `queuedReg`. -/
def reqDup : WatchReq :=
  { v := some "abc123", res := none, audio := none, format := none, token := some "t" }

/-- C9 (witness): with the live token `t` in the registry and an empty
limit table, the duplicate-token submission is rejected with Conflict yet
leaves the client's limit entry at count 1; the registry is unchanged. -/
theorem C9_rejected_consumes_quota_witness :
    (watch ⟨queuedReg, []⟩ reqDup "1.1.1.1" "2026-10-12" "f123" 0).2.downloads
        = queuedReg ∧
    ((watch ⟨queuedReg, []⟩ reqDup "1.1.1.1" "2026-10-12" "f123" 0).1
        = WatchResult.badRequest ∨
     (watch ⟨queuedReg, []⟩ reqDup "1.1.1.1" "2026-10-12" "f123" 0).1
        = WatchResult.conflict) ∧
    (∃ c, AList.get?
          (watch ⟨queuedReg, []⟩ reqDup "1.1.1.1" "2026-10-12" "f123" 0).2.ip_limits
          "1.1.1.1" = some ⟨"2026-10-12", c⟩ ∧
       (c = 1 ∨ ∃ e, AList.get? ([] : AList IpEntry) "1.1.1.1" = some e ∧
          c = e.count + 1)) := by
  have h := C9_rejected_consumes_quota ⟨queuedReg, []⟩ reqDup "1.1.1.1" "2026-10-12"
      "f123" 0 rfl rfl (Or.inr ⟨Or.inl rfl, rfl⟩)
  exact ⟨h.1, h.2.2.1, h.2.2.2⟩

/-- C10: a submission whose token parameter is present but empty behaves
exactly as one with no token parameter — the fresh generated token is
used — and the empty string is never stored as a registry key. -/
theorem C10_empty_token (st : ServerState) (req : WatchReq)
    (ip todayStr freshToken : String) (now : ℚ)
    (hempty : req.token = some "") (hfresh : freshToken ≠ "") :
    watch st req ip todayStr freshToken now
        = watch st { req with token := none } ip todayStr freshToken now ∧
    (AList.get? st.downloads "" = none →
      AList.get? (watch st req ip todayStr freshToken now).2.downloads "" = none) := by
  have htok : pyOrStr req.token freshToken = pyOrStr none freshToken := by
    rw [hempty]
    simp [pyOrStr]
  constructor
  · simp only [watch, hempty, pyOrStr]
    rfl
  · intro h0
    by_cases hv : pyTruthyStr req.v = true
    · by_cases hlim : (check_ip_limit st.ip_limits ip todayStr).1 = true
      · by_cases hfmt : strLower (req.format.getD "mp4") = "mp4" ∨
            strLower (req.format.getD "mp4") = "webm"
        · by_cases hdup : (AList.get? st.downloads (pyOrStr req.token freshToken)).isSome
              = true
          · rw [watch_conflict st req ip todayStr freshToken now hv hlim hfmt hdup]
            exact h0
          · rw [watch_accepted st req ip todayStr freshToken now hv hlim hfmt
              (by simp only [Bool.not_eq_true] at hdup; exact hdup)]
            show AList.get? (AList.set st.downloads (pyOrStr req.token freshToken) _) ""
                = none
            rw [AList.get?_set_ne _ _ _ _ (by rw [htok]; exact hfresh)]
            exact h0
        · rw [watch_badFormat st req ip todayStr freshToken now hv hlim
            (fun h => hfmt (Or.inl h)) (fun h => hfmt (Or.inr h))]
          exact h0
      · rw [watch_limited st req ip todayStr freshToken now hv
          (by simp only [Bool.not_eq_true] at hlim; exact hlim)]
        exact h0
    · rw [watch_noV st req ip todayStr freshToken now hv]
      exact h0

/-- A submission request carrying an explicitly empty token parameter. -/
def reqEmptyTok : WatchReq :=
  { v := some "abc123", res := none, audio := none, format := none, token := some "" }

/-- C10 (witness): on an empty state the empty-token submission equals the
no-token submission, and no empty-string key appears in the registry. -/
theorem C10_empty_token_witness :
    watch ⟨[], []⟩ reqEmptyTok "1.1.1.1" "2026-10-12" "f123" 0
        = watch ⟨[], []⟩ { reqEmptyTok with token := none } "1.1.1.1" "2026-10-12" "f123" 0 ∧
    AList.get? (watch ⟨[], []⟩ reqEmptyTok "1.1.1.1" "2026-10-12" "f123" 0).2.downloads ""
        = none := by
  have h := C10_empty_token ⟨[], []⟩ reqEmptyTok "1.1.1.1" "2026-10-12" "f123" 0
      rfl (by decide)
  exact ⟨h.1, h.2 rfl⟩

end Ytdown
